import Mathlib

/-!
Verification of the evocaition response decoding engine (src/api.rs).

The Rust source is shallowly embedded: string slices become lists of
characters, the serde data model becomes Lean structures with explicit
structural parsers over a JSON value tree, the streaming read loop becomes
a fuel-indexed recursive function (fuel exhaustion for every fuel models a
loop that runs forever), and the external collaborators (the HTTP
transport, the serde_json lexer turning raw text into a JSON tree, the url
crate, the filesystem, and the base64 encoder) are parameters of the
embedded functions.
-/

namespace Evocaition

/-- Rust str slices and owned Strings of the framing layer are modelled as
lists of characters (the streamed chunks are taken after the lossy UTF-8
decode performed by String::from_utf8_lossy, which is external). -/
abbrev Str := List Char

/-- Whitespace test used by str::trim and str::trim_start; the model covers
the ASCII whitespace characters that can occur in the wire protocol. -/
def isWsChar (c : Char) : Bool :=
  c == ' ' || c == '\t' || c == '\n' || c == '\r'

/-- Embedding of str::trim_start. -/
def trimStartL (s : Str) : Str := s.dropWhile isWsChar

/-- Embedding of str::trim_end. -/
def trimEndL (s : Str) : Str := (s.reverse.dropWhile isWsChar).reverse

/-- Embedding of str::trim. -/
def trimL (s : Str) : Str := trimEndL (trimStartL s)

/-- Embedding of buffer.find of a newline character followed by the slicing
done at lines 349-350 and 406 of api.rs: returns the text before the first
newline and the text after it, or none when the buffer holds no newline. -/
def splitNl : Str → Option (Str × Str)
  | [] => none
  | c :: cs =>
    if c = '\n' then some ([], cs)
    else (splitNl cs).map (fun p => (c :: p.1, p.2))

/-- Embedding of str::strip_prefix applied to a literal marker. -/
def dropFront : Str → Str → Option Str
  | [], s => some s
  | _ :: _, [] => none
  | a :: ps, b :: ss => if a = b then dropFront ps ss else none

/-- The literal prefix that marks a payload line in the stream. -/
def dataTag : Str := "data: ".toList

/-- The literal end-of-stream sentinel. -/
def doneTag : Str := "[DONE]".toList

/-- Numeric JSON values; integers carry the exact integer, every other
number is carried as a rational (the f32/f64 to JSON-number conversion is
performed by the external serde layer). -/
inductive JNum
  | int (n : Int)
  | flt (q : Rat)

/-- The JSON value tree produced by the serde_json lexer. Objects are field
lists; the wire documents of this protocol have distinct keys. -/
inductive Json
  | null
  | bool (b : Bool)
  | num (n : JNum)
  | str (s : String)
  | arr (elems : List Json)
  | obj (fields : List (String × Json))

/-- Field lookup in a JSON object, as performed by the serde map visitor. -/
def getField : List (String × Json) → String → Option Json
  | [], _ => none
  | (k, v) :: rest, key => if k = key then some v else getField rest key

/-! Data model of src/api.rs lines 12-121: the derived serde structures. -/

/-- FunctionCall of api.rs: name plus arbitrary JSON arguments. -/
structure FunctionCall where
  name : String
  arguments : Json

/-- ToolCall of api.rs. -/
structure ToolCall where
  id : String
  type : String
  function : FunctionCall

/-- ErrorResponse of api.rs: code is an i32, metadata an arbitrary value. -/
structure ErrorResponse where
  code : Int
  message : String
  metadata : Option Json

/-- ErrorResponseContainer of api.rs: the top level error envelope. -/
structure ErrorResponseContainer where
  error : ErrorResponse

/-- Message of api.rs. -/
structure Message where
  content : Option String
  role : String
  tool_calls : Option (List ToolCall)

/-- Delta of api.rs. -/
structure Delta where
  content : Option String
  role : Option String
  tool_calls : Option (List ToolCall)

/-- NonChatChoice of api.rs. -/
structure NonChatChoice where
  finish_reason : Option String
  text : String
  error : Option ErrorResponse

/-- NonStreamingChoice of api.rs. -/
structure NonStreamingChoice where
  finish_reason : Option String
  message : Message
  error : Option ErrorResponse

/-- StreamingChoice of api.rs. -/
structure StreamingChoice where
  finish_reason : Option String
  delta : Delta
  error : Option ErrorResponse

/-- Choice of api.rs: the untagged serde union of the three shapes, in
declaration order. -/
inductive Choice
  | nonChat (c : NonChatChoice)
  | nonStreaming (c : NonStreamingChoice)
  | streaming (c : StreamingChoice)

/-- Usage of api.rs: three u64 token counters. -/
structure Usage where
  prompt_tokens : Nat
  completion_tokens : Nat
  total_tokens : Nat

/-- Response of api.rs lines 12-37. -/
structure Response where
  id : Option String
  provider : Option String
  model : String
  object : String
  created : Nat
  choices : List Choice
  system_fingerprint : Option String
  usage : Option Usage

/-! Structural deserialization, following the semantics of the derived
serde Deserialize implementations: a struct reads from a JSON object,
required fields must be present with the right type, fields of Option type
are None when the key is missing or holds null, unknown keys are ignored,
and a field whose value has the wrong type fails the whole struct. -/

/-- Reading a string value. -/
def asString : Json → Option String
  | .str s => some s
  | _ => none

/-- Reading a u64 value: an integral JSON number within the u64 range. -/
def asU64 : Json → Option Nat
  | .num (.int n) => if 0 ≤ n ∧ n < 2 ^ 64 then some n.toNat else none
  | _ => none

/-- Reading an i32 value: an integral JSON number within the i32 range. -/
def asI32 : Json → Option Int
  | .num (.int n) => if -(2 ^ 31) ≤ n ∧ n < 2 ^ 31 then some n else none
  | _ => none

/-- Required field: the key must be present and its value must satisfy the
element parser (null never satisfies the parsers used for required
fields, matching serde failing a non Option field on null). -/
def reqField (f : List (String × Json)) (key : String)
    (p : Json → Option α) : Option α :=
  (getField f key).bind p

/-- Optional field with serde Option semantics: missing key or null gives
None, any other value must satisfy the element parser. -/
def optField (f : List (String × Json)) (key : String)
    (p : Json → Option α) : Option (Option α) :=
  match getField f key with
  | none => some none
  | some .null => some none
  | some v => (p v).map some

/-- Element-wise parsing of a JSON array, failing when any element fails,
as a serde Vec does. -/
def parseList (p : Json → Option α) : List Json → Option (List α)
  | [] => some []
  | x :: xs =>
    match p x, parseList p xs with
    | some a, some ys => some (a :: ys)
    | _, _ => none

/-- Deserialize FunctionCall: name is a required string, arguments is a
required field of arbitrary JSON value. -/
def parseFunctionCall : Json → Option FunctionCall
  | .obj f =>
    match reqField f "name" asString, getField f "arguments" with
    | some name, some args => some ⟨name, args⟩
    | _, _ => none
  | _ => none

/-- Deserialize ToolCall. -/
def parseToolCall : Json → Option ToolCall
  | .obj f =>
    match reqField f "id" asString, reqField f "type" asString,
          reqField f "function" parseFunctionCall with
    | some i, some t, some fc => some ⟨i, t, fc⟩
    | _, _, _ => none
  | _ => none

/-- Deserialize a Vec of ToolCall. -/
def parseToolCallList : Json → Option (List ToolCall)
  | .arr xs => parseList parseToolCall xs
  | _ => none

/-- Deserialize ErrorResponse. -/
def parseErrorResponse : Json → Option ErrorResponse
  | .obj f =>
    match reqField f "code" asI32, reqField f "message" asString,
          optField f "metadata" some with
    | some code, some message, some metadata => some ⟨code, message, metadata⟩
    | _, _, _ => none
  | _ => none

/-- Deserialize ErrorResponseContainer. -/
def parseErrorResponseContainer : Json → Option ErrorResponseContainer
  | .obj f =>
    match reqField f "error" parseErrorResponse with
    | some e => some ⟨e⟩
    | none => none
  | _ => none

/-- Deserialize Message. -/
def parseMessage : Json → Option Message
  | .obj f =>
    match optField f "content" asString, reqField f "role" asString,
          optField f "tool_calls" parseToolCallList with
    | some content, some role, some tc => some ⟨content, role, tc⟩
    | _, _, _ => none
  | _ => none

/-- Deserialize Delta. -/
def parseDelta : Json → Option Delta
  | .obj f =>
    match optField f "content" asString, optField f "role" asString,
          optField f "tool_calls" parseToolCallList with
    | some content, some role, some tc => some ⟨content, role, tc⟩
    | _, _, _ => none
  | _ => none

/-- Deserialize NonChatChoice from an object field list. -/
def parseNonChatChoice (f : List (String × Json)) : Option NonChatChoice :=
  match optField f "finish_reason" asString, reqField f "text" asString,
        optField f "error" parseErrorResponse with
  | some fr, some t, some e => some ⟨fr, t, e⟩
  | _, _, _ => none

/-- Deserialize NonStreamingChoice from an object field list. -/
def parseNonStreamingChoice (f : List (String × Json)) :
    Option NonStreamingChoice :=
  match optField f "finish_reason" asString, reqField f "message" parseMessage,
        optField f "error" parseErrorResponse with
  | some fr, some m, some e => some ⟨fr, m, e⟩
  | _, _, _ => none

/-- Deserialize StreamingChoice from an object field list. -/
def parseStreamingChoice (f : List (String × Json)) : Option StreamingChoice :=
  match optField f "finish_reason" asString, reqField f "delta" parseDelta,
        optField f "error" parseErrorResponse with
  | some fr, some d, some e => some ⟨fr, d, e⟩
  | _, _, _ => none

/-- Deserialize Choice: the untagged union tries the variants in
declaration order (NonChat, then NonStreaming, then Streaming) and the
first structurally valid match wins. -/
def parseChoice : Json → Option Choice
  | .obj f =>
    match parseNonChatChoice f with
    | some c => some (.nonChat c)
    | none =>
      match parseNonStreamingChoice f with
      | some c => some (.nonStreaming c)
      | none =>
        match parseStreamingChoice f with
        | some c => some (.streaming c)
        | none => none
  | _ => none

/-- Deserialize the Vec of choices. -/
def parseChoiceList : Json → Option (List Choice)
  | .arr xs => parseList parseChoice xs
  | _ => none

/-- Deserialize Usage. -/
def parseUsage : Json → Option Usage
  | .obj f =>
    match reqField f "prompt_tokens" asU64, reqField f "completion_tokens" asU64,
          reqField f "total_tokens" asU64 with
    | some p, some c, some t => some ⟨p, c, t⟩
    | _, _, _ => none
  | _ => none

/-- Deserialize Response. -/
def parseResponse : Json → Option Response
  | .obj f =>
    match optField f "id" asString, optField f "provider" asString,
          reqField f "model" asString, reqField f "object" asString,
          reqField f "created" asU64, reqField f "choices" parseChoiceList,
          optField f "system_fingerprint" asString, optField f "usage" parseUsage with
    | some id, some provider, some model, some object, some created,
      some choices, some fp, some usage =>
        some ⟨id, provider, model, object, created, choices, fp, usage⟩
    | _, _, _, _, _, _, _, _ => none
  | _ => none

/-! Streaming decoder, api.rs lines 342-412 (process_streaming_response).
The serde_json lexer that turns a payload line into a JSON tree is an
external collaborator and is passed in as the parameter tok; both from_str
calls on one line share its outcome (they lex the same text), so a line on
which tok fails makes both structural parses fail. -/

/-- Fatal streaming decode failures returned as Err from the loop. -/
inductive StreamErr
  | apiError (code : Int) (message : String) (metadata : Option Json)
  | malformed (raw : Str)

/-- Outcome of the inner line-drain loop on one buffer. The emitted list
records every fragment passed to the callback, in order. -/
inductive DrainOutcome
  | finished (emitted : List String) (buffer : Str)
  | doneSig (emitted : List String) (buffer : Str)
  | failed (emitted : List String) (e : StreamErr)
  | diverged (emitted : List String)

/-- Prepend fragments that were dispatched before the rest of the drain. -/
def DrainOutcome.withFrags (fs : List String) : DrainOutcome → DrainOutcome
  | .finished gs buf => .finished (fs ++ gs) buf
  | .doneSig gs buf => .doneSig (fs ++ gs) buf
  | .failed gs e => .failed (fs ++ gs) e
  | .diverged gs => .diverged (fs ++ gs)

/-- Fragments dispatched for one parsed choice, following the match at
api.rs lines 366-380: NonChat text is always emitted, a Streaming delta
content and a NonStreaming message content only when present. -/
def choiceFragments : Choice → List String
  | .nonChat c => [c.text]
  | .streaming c =>
    match c.delta.content with
    | some content => [content]
    | none => []
  | .nonStreaming c =>
    match c.message.content with
    | some content => [content]
    | none => []

/-- Fragments dispatched for the whole choices array, in document order. -/
def extractFragments : List Choice → List String
  | [] => []
  | c :: cs => choiceFragments c ++ extractFragments cs

/-- One run of the inner while-let drain loop of api.rs lines 349-408,
indexed by fuel. Note the two places where the buffer is not advanced,
exactly as in the source: the empty-line continue at line 354 and the
DONE break at line 360. -/
def drain (tok : Str → Option Json) : Nat → Str → DrainOutcome
  | 0, _ => .diverged []
  | fuel + 1, buffer =>
    match splitNl buffer with
    | none => .finished [] buffer
    | some (before, rest) =>
      let line := trimL before
      if line = [] then
        drain tok fuel buffer
      else
        match dropFront dataTag line with
        | some jsonStr =>
          if trimL jsonStr = doneTag then .doneSig [] buffer
          else
            match tok jsonStr with
            | some j =>
              match parseResponse j with
              | some resp =>
                (drain tok fuel (trimStartL rest)).withFrags
                  (extractFragments resp.choices)
              | none =>
                match parseErrorResponseContainer j with
                | some ec =>
                  .failed [] (.apiError ec.error.code ec.error.message
                    ec.error.metadata)
                | none => .failed [] (.malformed jsonStr)
            | none => .failed [] (.malformed jsonStr)
        | none => drain tok fuel (trimStartL rest)

/-- One event delivered by response.chunk(): either Ok(Some(bytes)) with
the lossy-decoded text, or Err from the transport. The end of the event
list models Ok(None), the normal end of stream. -/
inductive ChunkEvent
  | chunk (s : Str)
  | readErr

/-- Result of the whole streaming call. -/
inductive StreamRes
  | ok
  | failed (e : StreamErr)
  | diverged

/-- Observable outcome of the streaming call: fragments in dispatch order
plus the returned result. -/
structure StreamOutcome where
  emitted : List String
  res : StreamRes

/-- Prepend earlier fragments to a streaming outcome. -/
def StreamOutcome.withFrags (fs : List String) (o : StreamOutcome) :
    StreamOutcome :=
  ⟨fs ++ o.emitted, o.res⟩

/-- The outer while-let read loop of api.rs line 345: a chunk is appended
to the buffer and the buffer drained; an Err event makes the while-let
pattern fail, so the loop exits and Ok(()) is returned with the remaining
events never read. -/
def processChunksFrom (tok : Str → Option Json) (fuel : Nat) :
    List ChunkEvent → Str → StreamOutcome
  | [], _ => ⟨[], .ok⟩
  | .readErr :: _, _ => ⟨[], .ok⟩
  | .chunk s :: rest, buffer =>
    match drain tok fuel (buffer ++ s) with
    | .finished fs buf => (processChunksFrom tok fuel rest buf).withFrags fs
    | .doneSig fs buf => (processChunksFrom tok fuel rest buf).withFrags fs
    | .failed fs e => ⟨fs, .failed e⟩
    | .diverged fs => ⟨fs, .diverged⟩

/-- process_streaming_response of api.rs: the read loop starting from the
empty buffer. -/
def process_streaming_response (tok : Str → Option Json) (fuel : Nat)
    (events : List ChunkEvent) : StreamOutcome :=
  processChunksFrom tok fuel events []

/-! Non-streaming decoder, api.rs lines 424-459. -/

/-- Result of the non-streaming call. The panicked constructor models the
panic macro aborting the process; the apiError and malformed constructors
model the two Err returns (the Rust error message strings are formatted
from exactly the recorded components, the raw body included). -/
inductive NonStreamRes
  | ok
  | apiError (code : Int) (message : String) (metadata : Option Json)
  | malformed (raw : String)
  | panicked (msg : String)

/-- Observable outcome of the non-streaming call: the fragments passed to
the callback plus the result. -/
structure NonStreamOutcome where
  emitted : List String
  res : NonStreamRes

/-- process_non_streaming_response of api.rs lines 424-459. The body
arrives as raw text together with the outcome of the external serde_json
lexer on it (doc = none when the text is not lexically valid JSON); both
from_str calls lex the same text, then apply their structural parse. -/
def process_non_streaming_response (raw : String) (doc : Option Json) :
    NonStreamOutcome :=
  match doc.bind parseResponse with
  | some api_result =>
    match api_result.choices.head? with
    | none => ⟨[], .ok⟩
    | some (.nonChat ncc) => ⟨[ncc.text], .ok⟩
    | some (.nonStreaming nsc) => ⟨[nsc.message.content.getD ""], .ok⟩
    | some (.streaming _) =>
      ⟨[], .panicked "Shouldn\x27t be getting streaming responses here..."⟩
  | none =>
    match doc.bind parseErrorResponseContainer with
    | some ec => ⟨[], .apiError ec.error.code ec.error.message ec.error.metadata⟩
    | none => ⟨[], .malformed raw⟩

/-! Request builder, api.rs lines 233-324 (build_request_body), together
with the Config structure of config.rs it reads. -/

/-- Config of config.rs. Numeric f32 options are modelled by the JSON
number each one serializes to (the f32 to number conversion is the
external serde layer); u32 fields become Nat, i64 becomes Int. -/
structure Config where
  api : String
  api_key : String
  prompt : Option String
  max_tokens : Option Nat
  model_id : String
  stream : Bool
  plain : Bool
  temp : Option JNum
  top_p : Option JNum
  min_p : Option JNum
  top_k : Option Nat
  rep_pen : Option JNum
  seed : Option Int
  image_file : Option String

/-- Outcome of build_request_body: either the built JSON body, or a panic
raised by the expect call on a failed image file read (the Rust function
returns a bare Value and has no error return path). -/
inductive BuildOutcome
  | ok (body : Json)
  | panicked (msg : String)

/-- The last segment of path.split with a dot, as used at api.rs line 247:
everything after the final dot, or the whole string when no dot occurs
(split never yields an empty iterator, so last() is always Some). -/
def lastDotSeg (s : Str) : Str :=
  (s.reverse.takeWhile (fun c => c ≠ '.')).reverse

/-- The fixed closed extension-to-MIME mapping of api.rs lines 247-252. -/
def mimeTypeFor (ext : Str) : Option String :=
  if ext = "jpg".toList ∨ ext = "jpeg".toList then some "image/jpeg"
  else if ext = "png".toList then some "image/png"
  else if ext = "webp".toList then some "image/webp"
  else none

/-- The image content computation of api.rs lines 243-268. urlOk models
Url::parse succeeding, readFile the filesystem read (none = failure), b64
the base64 encoder; Except.error models the expect panic at line 257. -/
def imageContent (urlOk : String → Bool) (readFile : String → Option (List Nat))
    (b64 : List Nat → String) (imagePath : String) : Except String String :=
  if urlOk imagePath then .ok imagePath
  else
    match mimeTypeFor (lastDotSeg imagePath.toList) with
    | some mime =>
      match readFile imagePath with
      | some bytes => .ok ("data:" ++ mime ++ ";base64," ++ b64 bytes)
      | none => .error "Failed to read image file"
    | none => .ok ""

/-- The image-bearing user message pair of api.rs lines 270-286. -/
def imageMessages (content : String) (prompt : String) : List Json :=
  [.obj [("role", .str "user"),
         ("content", .arr [.obj [("type", .str "image_url"),
                                 ("image_url", .obj [("url", .str content)])]])],
   .obj [("role", .str "user"), ("content", .str prompt)]]

/-- The plain user message of api.rs lines 288-291. -/
def userMessage (prompt : String) : List Json :=
  [.obj [("role", .str "user"), ("content", .str prompt)]]

/-- Insert-or-replace of a key in an object field list, the semantics of
serde_json Value index assignment. -/
def setField : List (String × Json) → String → Json → List (String × Json)
  | [], k, v => [(k, v)]
  | (k1, v1) :: rest, k, v =>
    if k1 = k then (k, v) :: rest else (k1, v1) :: setField rest k v

/-- Index assignment body[k] = v on a JSON value (the body is always an
object here). -/
def setKey (j : Json) (k : String) (v : Json) : Json :=
  match j with
  | .obj f => .obj (setField f k v)
  | other => other

/-- One of the conditional assignments of api.rs lines 301-321: assign the
key only when the option is set. -/
def maybeSet (j : Json) (k : String) (o : Option Json) : Json :=
  match o with
  | some v => setKey j k v
  | none => j

/-- The optional sampling parameter merge of api.rs lines 300-321, in
source order. -/
def addOptionals (cfg : Config) (body : Json) : Json :=
  maybeSet (maybeSet (maybeSet (maybeSet (maybeSet (maybeSet (maybeSet body
    "max_tokens" (cfg.max_tokens.map (fun n => Json.num (JNum.int n))))
    "temperature" (cfg.temp.map Json.num))
    "top_k" (cfg.top_k.map (fun n => Json.num (JNum.int n))))
    "top_p" (cfg.top_p.map Json.num))
    "min_p" (cfg.min_p.map Json.num))
    "repetition_penalty" (cfg.rep_pen.map Json.num))
    "seed" (cfg.seed.map (fun n => Json.num (JNum.int n)))

/-- build_request_body of api.rs lines 233-324. -/
def build_request_body (urlOk : String → Bool)
    (readFile : String → Option (List Nat)) (b64 : List Nat → String)
    (cfg : Config) (prompt : String) : BuildOutcome :=
  let baseE : Except String Json :=
    if cfg.plain then
      .ok (.obj [("model", .str cfg.model_id), ("prompt", .str prompt),
                 ("stream", .bool cfg.stream)])
    else
      match cfg.image_file with
      | some imagePath =>
        (imageContent urlOk readFile b64 imagePath).map fun content =>
          .obj [("model", .str cfg.model_id),
                ("messages", .arr (imageMessages content prompt)),
                ("stream", .bool cfg.stream)]
      | none =>
        .ok (.obj [("model", .str cfg.model_id),
                   ("messages", .arr (userMessage prompt)),
                   ("stream", .bool cfg.stream)])
  match baseE with
  | .error msg => .panicked msg
  | .ok body => .ok (addOptionals cfg body)

/-- Key lookup on a JSON value. -/
def getKey? (j : Json) (k : String) : Option Json :=
  match j with
  | .obj f => getField f k
  | _ => none

/-- Key presence on a JSON value. -/
def hasKey (j : Json) (k : String) : Bool :=
  (getKey? j k).isSome

/-- The optional sampling parameters in merge order, with the payload key
each one is stored under and the JSON value it carries. -/
def optPairs (cfg : Config) : List (String × Option Json) :=
  [("max_tokens", cfg.max_tokens.map (fun n => Json.num (JNum.int n))),
   ("temperature", cfg.temp.map Json.num),
   ("top_k", cfg.top_k.map (fun n => Json.num (JNum.int n))),
   ("top_p", cfg.top_p.map Json.num),
   ("min_p", cfg.min_p.map Json.num),
   ("repetition_penalty", cfg.rep_pen.map Json.num),
   ("seed", cfg.seed.map (fun n => Json.num (JNum.int n)))]

/-- Sequential application of conditional key assignments. -/
def applyOpts : Json → List (String × Option Json) → Json
  | b, [] => b
  | b, (k, o) :: rest => applyOpts (maybeSet b k o) rest

/-! Concrete instances used by witnesses and counterexamples. -/

/-- The raw text of the standard rate-limit error body. -/
def rawBody429 : String :=
  "\x7b\"error\":\x7b\"code\":429,\"message\":\"rate limited\"\x7d\x7d"

/-- The JSON tree the serde lexer produces for rawBody429. -/
def body429 : Json :=
  .obj [("error", .obj [("code", .num (.int 429)),
                        ("message", .str "rate limited")])]

/-- The error payload carried by body429. -/
def ec429 : ErrorResponseContainer := ⟨⟨429, "rate limited", none⟩⟩

/-- A wire document whose only choice is delta shaped. -/
def docDelta : Json :=
  .obj [("model", .str "m"), ("object", .str "chat.completion.chunk"),
        ("created", .num (.int 0)),
        ("choices", .arr [.obj [("delta", .obj [("content", .str "x")])]])]

/-- The delta choice docDelta parses to. -/
def scDelta : StreamingChoice := ⟨none, ⟨some "x", none, none⟩, none⟩

/-- The decoded form of docDelta. -/
def respDelta : Response :=
  ⟨none, none, "m", "chat.completion.chunk", 0, [.streaming scDelta], none, none⟩

/-- A plain-mode configuration with no optional parameter set. -/
def cfgPlain : Config :=
  ⟨"https://openrouter.ai/api", "", none, none, "m", false, true,
   none, none, none, none, none, none, none⟩

/-- A chat-mode configuration with no optional parameter set. -/
def cfgChat : Config :=
  ⟨"https://openrouter.ai/api", "", none, none, "m", false, false,
   none, none, none, none, none, none, none⟩

/-- A chat-mode configuration with a local png image attachment. -/
def cfgPng : Config :=
  ⟨"https://openrouter.ai/api", "", none, none, "m", false, false,
   none, none, none, none, none, none, some "img.png"⟩

/-- A chat-mode configuration with three sampling parameters set. -/
def cfgOpt : Config :=
  ⟨"https://openrouter.ai/api", "", none, some 100, "m", true, false,
   some (.int 1), none, none, none, none, some (-5), none⟩

/-- A streaming wire document holding one choice of each shape: a plain
choice with empty text, a delta choice with content, and a full-message
choice without content. -/
def docMixed : Json :=
  .obj [("model", .str "m"), ("object", .str "chat.completion"),
        ("created", .num (.int 0)),
        ("choices", .arr
          [.obj [("text", .str "")],
           .obj [("delta", .obj [("content", .str "b")])],
           .obj [("message", .obj [("role", .str "assistant")])]])]

/-- The decoded form of docMixed. -/
def respMixed : Response :=
  ⟨none, none, "m", "chat.completion", 0,
   [.nonChat ⟨none, "", none⟩,
    .streaming ⟨none, ⟨some "b", none, none⟩, none⟩,
    .nonStreaming ⟨none, ⟨none, "assistant", none⟩, none⟩],
   none, none⟩

/-- A lexer mapping the single payload line payload8 to docMixed. -/
def tokMixed : Str → Option Json :=
  fun s => if s = "payload8".toList then some docMixed else none

/-- The body built for cfgOpt with prompt hi. -/
def bodyOpt : Json :=
  .obj [("model", .str "m"), ("messages", .arr (userMessage "hi")),
        ("stream", .bool true), ("max_tokens", .num (.int 100)),
        ("temperature", .num (.int 1)), ("seed", .num (.int (-5)))]

/-- The buffer state the drain loop leaves behind after breaking on the
DONE sentinel: the first complete line of the buffer is a sentinel line.
The break does not consume that line, so this state persists. -/
def frontIsDone (buffer : Str) : Prop :=
  ∃ before rest js, splitNl buffer = some (before, rest) ∧ trimL before ≠ []
    ∧ dropFront dataTag (trimL before) = some js ∧ trimL js = doneTag

/-! Apparatus for the independence of the embedded per-choice error field:
the decoders never read it, so two wire documents differing only in it are
observationally equal. -/

/-- Drop the embedded error of one parsed choice. -/
def Choice.eraseError : Choice → Choice
  | .nonChat c => .nonChat ⟨c.finish_reason, c.text, none⟩
  | .nonStreaming c => .nonStreaming ⟨c.finish_reason, c.message, none⟩
  | .streaming c => .streaming ⟨c.finish_reason, c.delta, none⟩

/-- Drop every embedded choice error of a decoded response. -/
def Response.eraseErrors (r : Response) : Response :=
  ⟨r.id, r.provider, r.model, r.object, r.created,
   r.choices.map Choice.eraseError, r.system_fingerprint, r.usage⟩

/-- Normal form of a choice object with a prescribed error entry: the
fields other than error, followed by the optional error entry. Lookup by
key makes any choice object equal, as a parser input, to this form. -/
def withErrorField (fields : List (String × Json)) (o : Option Json) :
    List (String × Json) :=
  fields.filter (fun p => p.1 != "error") ++
    (match o with
     | some e => [("error", e)]
     | none => [])

/-- A well-formed embedded error entry: absent, null, or an object that
deserializes as an ErrorResponse. -/
def WellFormedErr (o : Option Json) : Prop :=
  match o with
  | none => True
  | some e => e = .null ∨ (parseErrorResponse e).isSome = true

/-- Two choice objects differing only in the presence or value of a
well-formed embedded error entry, all other fields equal. -/
def ChoiceDocEquiv (c c' : Json) : Prop :=
  ∃ fields o o', WellFormedErr o ∧ WellFormedErr o' ∧
    c = .obj (withErrorField fields o) ∧ c' = .obj (withErrorField fields o')

/-- Normal form of a response document with a prescribed choices array. -/
def withChoicesField (top : List (String × Json)) (cs : List Json) :
    List (String × Json) :=
  top.filter (fun p => p.1 != "choices") ++ [("choices", .arr cs)]

/-- Two wire documents that differ only in embedded per-choice error
entries: same top-level fields and pointwise ChoiceDocEquiv choices. -/
def DocErrEquiv (d d' : Json) : Prop :=
  ∃ top cs cs', List.Forall₂ ChoiceDocEquiv cs cs' ∧
    d = .obj (withChoicesField top cs) ∧ d' = .obj (withChoicesField top cs')

/-- DocErrEquiv lifted to lexer outcomes: two streams whose payload lines
lex to pointwise equivalent documents. -/
def OptDocEquiv : Option Json → Option Json → Prop
  | none, none => True
  | some d, some d' => DocErrEquiv d d'
  | _, _ => False

/-- A minimal well-formed embedded error object. -/
def errJson : Json :=
  .obj [("code", .num (.int 1)), ("message", .str "e")]

/-- The top-level fields shared by the C10 witness documents. -/
def topX : List (String × Json) :=
  [("model", .str "m"), ("object", .str "chat.completion"),
   ("created", .num (.int 0))]

/-- A plain choice object carrying an embedded error. -/
def cErr : Json := .obj (withErrorField [("text", .str "t")] (some errJson))

/-- The same choice object without the embedded error. -/
def cNoErr : Json := .obj (withErrorField [("text", .str "t")] none)

/-- A wire document whose single choice carries an embedded error. -/
def dErr : Json := .obj (withChoicesField topX [cErr])

/-- The same wire document without the embedded error. -/
def dNoErr : Json := .obj (withChoicesField topX [cNoErr])

/-- A lexer mapping the payload line pl to dErr. -/
def tokErr : Str → Option Json :=
  fun s => if s = "pl".toList then some dErr else none

/-- A lexer mapping the payload line pl to dNoErr. -/
def tokNoErr : Str → Option Json :=
  fun s => if s = "pl".toList then some dNoErr else none

/-!
Theorems. Each claim of the specification gets one theorem below, with
shared helper lemmas proved first.
-/

/-- C1. Claimed: the line-drain loop always terminates, removing each
complete line (an empty line included) together with its newline from the
front of the buffer before the next newline search. The code violates
this: the skip branch for a line that is empty after trimming issues a
continue without advancing the buffer, so a buffer whose first line is
empty (for example after the single chunk consisting of one newline) makes
the drain loop rescan the same newline forever. For every fuel bound the
drain diverges, and the whole streaming call diverges with no fragment
emitted. -/
theorem empty_line_drain_diverges :
    (∀ (tok : Str → Option Json) (fuel : Nat),
      drain tok fuel ("\n".toList) = .diverged [])
    ∧ (∀ (tok : Str → Option Json) (fuel : Nat),
      process_streaming_response tok fuel [.chunk ("\n".toList)]
        = ⟨[], .diverged⟩) := by
  have h1 : ∀ (tok : Str → Option Json) (fuel : Nat),
      drain tok fuel ("\n".toList) = .diverged [] := by
    intro tok fuel
    induction fuel with
    | zero => rfl
    | succ n ih =>
      show drain tok (n + 1) ("\n".toList) = .diverged []
      rw [drain]
      simpa using ih
  refine ⟨h1, ?_⟩
  intro tok fuel
  show processChunksFrom tok fuel [.chunk ("\n".toList)] [] = ⟨[], .diverged⟩
  rw [processChunksFrom, List.nil_append, h1]

/-- C2. Claimed: a transport read failure on an individual chunk aborts
the whole call with an error, and the decoder never reports success after
a chunk-level read failure. The code violates this: the while-let pattern
of the read loop treats an Err from chunk() exactly like end of stream, so
the loop exits and the call returns Ok. A call whose chunk source fails on
the first read reports success with nothing emitted, whatever events would
have followed. -/
theorem chunk_read_error_reports_success :
    (∀ (tok : Str → Option Json) (fuel : Nat) (events : List ChunkEvent)
      (buffer : Str),
      processChunksFrom tok fuel (.readErr :: events) buffer = ⟨[], .ok⟩)
    ∧ (∀ (tok : Str → Option Json) (fuel : Nat) (events : List ChunkEvent),
      process_streaming_response tok fuel (.readErr :: events)
        = ⟨[], .ok⟩) := by
  exact ⟨fun _ _ _ _ => rfl, fun _ _ _ => rfl⟩

/-- C4 counterexample. On a non-streaming body whose first choice is delta
shaped, the decoder does not return an UnexpectedStreamingShape error
value: it panics (the panic macro at api.rs line 434), terminating the
process. -/
theorem delta_first_choice_panics_cx :
    process_non_streaming_response "raw" (some docDelta)
      = ⟨[], .panicked "Shouldn\x27t be getting streaming responses here..."⟩ :=
  rfl

/-- C4 amended: in the non-streaming path, a parsed response whose first
choice is delta shaped makes the decoder panic with the fixed message
(aborting the process) rather than silently falling back; no error value
is returned and no fragment is emitted. -/
theorem delta_first_choice_panics :
    ∀ (raw : String) (j : Json) (resp : Response) (c : StreamingChoice),
      parseResponse j = some resp →
      resp.choices.head? = some (.streaming c) →
      process_non_streaming_response raw (some j)
        = ⟨[], .panicked "Shouldn\x27t be getting streaming responses here..."⟩ := by
  intro raw j resp c h1 h2
  simp [process_non_streaming_response, h1, h2]

/-- C4 witness: the amended theorem applied to the concrete delta-shaped
document. -/
theorem delta_first_choice_panics_witness :
    process_non_streaming_response "w" (some docDelta)
      = ⟨[], .panicked "Shouldn\x27t be getting streaming responses here..."⟩ :=
  delta_first_choice_panics "w" docDelta respDelta scDelta rfl rfl

/-- C5. In the non-streaming path, a body that fails the DecodedResponse
parse but parses as an error envelope fails the call with the envelope
code, message and metadata and emits nothing; a body failing both parses
fails with the malformed-response error retaining the raw body and emits
nothing; and the concrete rate-limit body yields ApiError 429 with message
rate limited and zero fragments. -/
theorem nonstreaming_error_classification :
    (∀ (raw : String) (doc : Option Json) (ec : ErrorResponseContainer),
      doc.bind parseResponse = none →
      doc.bind parseErrorResponseContainer = some ec →
      process_non_streaming_response raw doc
        = ⟨[], .apiError ec.error.code ec.error.message ec.error.metadata⟩)
    ∧ (∀ (raw : String) (doc : Option Json),
      doc.bind parseResponse = none →
      doc.bind parseErrorResponseContainer = none →
      process_non_streaming_response raw doc = ⟨[], .malformed raw⟩)
    ∧ process_non_streaming_response rawBody429 (some body429)
        = ⟨[], .apiError 429 "rate limited" none⟩ := by
  refine ⟨?_, ?_, rfl⟩
  · intro raw doc ec h1 h2
    simp [process_non_streaming_response, h1, h2]
  · intro raw doc h1 h2
    simp [process_non_streaming_response, h1, h2]

/-- C5 witness: the classification applied to the concrete rate-limit
envelope and to a lexically invalid body. -/
theorem nonstreaming_error_classification_witness :
    process_non_streaming_response rawBody429 (some body429)
      = ⟨[], .apiError ec429.error.code ec429.error.message ec429.error.metadata⟩
    ∧ process_non_streaming_response "not json" none
      = ⟨[], .malformed "not json"⟩ :=
  ⟨nonstreaming_error_classification.1 rawBody429 (some body429) ec429 rfl rfl,
   nonstreaming_error_classification.2.1 "not json" none rfl rfl⟩

/-- C3 counterexample. With a local png path whose file read fails, the
request builder does not return a reportable error value: it panics via
the expect call at api.rs line 257, terminating the process. -/
theorem image_read_failure_panics_cx :
    build_request_body (fun _ => false) (fun _ => none) (fun _ => "")
      cfgPng "hi" = .panicked "Failed to read image file" :=
  rfl

/-- C3 amended: when the image reference is a local filesystem path (not a
URL) with a recognized extension and reading the file fails, the request
builder panics with the fixed message, aborting the process before any
request body exists; no error value is returned to the caller. -/
theorem image_read_failure_panics :
    ∀ (urlOk : String → Bool) (readFile : String → Option (List Nat))
      (b64 : List Nat → String) (cfg : Config) (prompt path mime : String),
      cfg.plain = false →
      cfg.image_file = some path →
      urlOk path = false →
      mimeTypeFor (lastDotSeg path.toList) = some mime →
      readFile path = none →
      build_request_body urlOk readFile b64 cfg prompt
        = .panicked "Failed to read image file" := by
  intro urlOk readFile b64 cfg prompt path mime h1 h2 h3 h4 h5
  simp [build_request_body, h1, h2, imageContent, h3, h4, h5, Except.map]
  simp only [String.toList] at h4
  rw [h4]

/-- C3 witness: the amended theorem applied to the concrete png
configuration with a failing filesystem. -/
theorem image_read_failure_panics_witness :
    build_request_body (fun _ => false) (fun _ => none) (fun _ => "")
      cfgPng "w" = .panicked "Failed to read image file" :=
  image_read_failure_panics (fun _ => false) (fun _ => none) (fun _ => "")
    cfgPng "w" "img.png" "image/png" rfl rfl rfl rfl rfl

/-! Helper lemmas about the key-merge operations of build_request_body. -/

theorem getField_setField_self (f : List (String × Json)) (k : String)
    (v : Json) : getField (setField f k v) k = some v := by
  induction f with
  | nil => simp [setField, getField]
  | cons p rest ih =>
    obtain ⟨k1, v1⟩ := p
    by_cases h : k1 = k
    · simp [setField, h, getField]
    · simp [setField, h, getField, ih]

theorem getField_setField_ne (f : List (String × Json)) (k k' : String)
    (v : Json) (h : k' ≠ k) :
    getField (setField f k v) k' = getField f k' := by
  induction f with
  | nil => simp [setField, getField, Ne.symm h]
  | cons p rest ih =>
    obtain ⟨k1, v1⟩ := p
    by_cases h1 : k1 = k
    · subst h1
      simp [setField, getField, Ne.symm h]
    · simp [setField, h1, getField, ih]

theorem getKey?_maybeSet_ne (b : Json) (k k' : String) (o : Option Json)
    (h : k' ≠ k) : getKey? (maybeSet b k o) k' = getKey? b k' := by
  cases o with
  | none => rfl
  | some v =>
    cases b with
    | obj f => simp [maybeSet, setKey, getKey?, getField_setField_ne f k k' v h]
    | null => rfl
    | bool b => rfl
    | num n => rfl
    | str s => rfl
    | arr xs => rfl

theorem getKey?_maybeSet_self (f : List (String × Json)) (k : String)
    (o : Option Json) (h : getField f k = none) :
    getKey? (maybeSet (.obj f) k o) k = o := by
  cases o with
  | none => simpa [maybeSet, getKey?] using h
  | some v => simp [maybeSet, setKey, getKey?, getField_setField_self]

theorem maybeSet_obj (f : List (String × Json)) (k : String) (o : Option Json) :
    ∃ f', maybeSet (.obj f) k o = .obj f' := by
  cases o with
  | none => exact ⟨f, rfl⟩
  | some v => exact ⟨setField f k v, rfl⟩

theorem applyOpts_append (ps qs : List (String × Option Json)) (b : Json) :
    applyOpts b (ps ++ qs) = applyOpts (applyOpts b ps) qs := by
  induction ps generalizing b with
  | nil => rfl
  | cons p rest ih =>
    obtain ⟨k, o⟩ := p
    simp [applyOpts, ih]

theorem applyOpts_obj (ps : List (String × Option Json))
    (f : List (String × Json)) : ∃ f', applyOpts (.obj f) ps = .obj f' := by
  induction ps generalizing f with
  | nil => exact ⟨f, rfl⟩
  | cons p rest ih =>
    obtain ⟨k, o⟩ := p
    obtain ⟨f1, e1⟩ := maybeSet_obj f k o
    obtain ⟨f2, e2⟩ := ih f1
    exact ⟨f2, by simp [applyOpts, e1, e2]⟩

theorem getKey?_applyOpts_notMem (ps : List (String × Option Json)) (b : Json)
    (k : String) (h : ∀ p ∈ ps, p.1 ≠ k) :
    getKey? (applyOpts b ps) k = getKey? b k := by
  induction ps generalizing b with
  | nil => rfl
  | cons p rest ih =>
    obtain ⟨k1, o⟩ := p
    have hk1 : k1 ≠ k := h (k1, o) (List.mem_cons_self _ _)
    have hrest : ∀ p ∈ rest, p.1 ≠ k := fun p hp => h p (List.mem_cons_of_mem _ hp)
    calc getKey? (applyOpts b ((k1, o) :: rest)) k
        = getKey? (applyOpts (maybeSet b k1 o) rest) k := rfl
      _ = getKey? (maybeSet b k1 o) k := ih _ hrest
      _ = getKey? b k := getKey?_maybeSet_ne _ _ _ _ (Ne.symm hk1)

theorem addOptionals_eq_applyOpts (cfg : Config) (body : Json) :
    addOptionals cfg body = applyOpts body (optPairs cfg) := rfl

theorem getKey?_addOptionals_at (cfg : Config) (f : List (String × Json))
    (k : String) (o : Option Json) (pre post : List (String × Option Json))
    (hsplit : optPairs cfg = pre ++ (k, o) :: post)
    (hpre : ∀ p ∈ pre, p.1 ≠ k) (hpost : ∀ p ∈ post, p.1 ≠ k)
    (hf : getField f k = none) :
    getKey? (addOptionals cfg (.obj f)) k = o := by
  rw [addOptionals_eq_applyOpts, hsplit, applyOpts_append]
  obtain ⟨f1, e1⟩ := applyOpts_obj pre f
  rw [e1]
  have hf1 : getField f1 k = none := by
    have hh := getKey?_applyOpts_notMem pre (.obj f) k hpre
    rw [e1] at hh
    simpa [getKey?, hf] using hh
  calc getKey? (applyOpts (Json.obj f1) ((k, o) :: post)) k
      = getKey? (applyOpts (maybeSet (Json.obj f1) k o) post) k := rfl
    _ = getKey? (maybeSet (Json.obj f1) k o) k :=
        getKey?_applyOpts_notMem post _ k hpost
    _ = o := getKey?_maybeSet_self f1 k o hf1

theorem getKey?_addOptionals_all (cfg : Config) (f : List (String × Json))
    (h1 : getField f "max_tokens" = none) (h2 : getField f "temperature" = none)
    (h3 : getField f "top_k" = none) (h4 : getField f "top_p" = none)
    (h5 : getField f "min_p" = none)
    (h6 : getField f "repetition_penalty" = none)
    (h7 : getField f "seed" = none) :
    getKey? (addOptionals cfg (.obj f)) "max_tokens"
        = cfg.max_tokens.map (fun n => Json.num (.int n))
    ∧ getKey? (addOptionals cfg (.obj f)) "temperature" = cfg.temp.map Json.num
    ∧ getKey? (addOptionals cfg (.obj f)) "top_k"
        = cfg.top_k.map (fun n => Json.num (.int n))
    ∧ getKey? (addOptionals cfg (.obj f)) "top_p" = cfg.top_p.map Json.num
    ∧ getKey? (addOptionals cfg (.obj f)) "min_p" = cfg.min_p.map Json.num
    ∧ getKey? (addOptionals cfg (.obj f)) "repetition_penalty"
        = cfg.rep_pen.map Json.num
    ∧ getKey? (addOptionals cfg (.obj f)) "seed"
        = cfg.seed.map (fun n => Json.num (.int n)) := by
  refine ⟨?_, ?_, ?_, ?_, ?_, ?_, ?_⟩
  · exact getKey?_addOptionals_at cfg f _ _ [] _ rfl (by simp) (by simp) h1
  · exact getKey?_addOptionals_at cfg f _ _ [("max_tokens",
      cfg.max_tokens.map (fun n => Json.num (JNum.int n)))] _ rfl (by simp)
      (by simp) h2
  · exact getKey?_addOptionals_at cfg f _ _ [("max_tokens",
      cfg.max_tokens.map (fun n => Json.num (JNum.int n))),
      ("temperature", cfg.temp.map Json.num)] _ rfl (by simp) (by simp) h3
  · exact getKey?_addOptionals_at cfg f _ _ [("max_tokens",
      cfg.max_tokens.map (fun n => Json.num (JNum.int n))),
      ("temperature", cfg.temp.map Json.num),
      ("top_k", cfg.top_k.map (fun n => Json.num (JNum.int n)))] _ rfl
      (by simp) (by simp) h4
  · exact getKey?_addOptionals_at cfg f _ _ [("max_tokens",
      cfg.max_tokens.map (fun n => Json.num (JNum.int n))),
      ("temperature", cfg.temp.map Json.num),
      ("top_k", cfg.top_k.map (fun n => Json.num (JNum.int n))),
      ("top_p", cfg.top_p.map Json.num)] _ rfl (by simp) (by simp) h5
  · exact getKey?_addOptionals_at cfg f _ _ [("max_tokens",
      cfg.max_tokens.map (fun n => Json.num (JNum.int n))),
      ("temperature", cfg.temp.map Json.num),
      ("top_k", cfg.top_k.map (fun n => Json.num (JNum.int n))),
      ("top_p", cfg.top_p.map Json.num),
      ("min_p", cfg.min_p.map Json.num)] _ rfl (by simp) (by simp) h6
  · exact getKey?_addOptionals_at cfg f _ _ [("max_tokens",
      cfg.max_tokens.map (fun n => Json.num (JNum.int n))),
      ("temperature", cfg.temp.map Json.num),
      ("top_k", cfg.top_k.map (fun n => Json.num (JNum.int n))),
      ("top_p", cfg.top_p.map Json.num),
      ("min_p", cfg.min_p.map Json.num),
      ("repetition_penalty", cfg.rep_pen.map Json.num)] _ rfl (by simp)
      (by simp) h7

theorem getKey?_addOptionals_other (cfg : Config) (b : Json) (k : String)
    (h : ∀ p ∈ optPairs cfg, p.1 ≠ k) :
    getKey? (addOptionals cfg b) k = getKey? b k := by
  rw [addOptionals_eq_applyOpts]
  exact getKey?_applyOpts_notMem _ _ _ h

theorem optKeys_ne_prompt (cfg : Config) :
    ∀ p ∈ optPairs cfg, p.1 ≠ "prompt" := by
  intro p hp
  simp only [optPairs, List.mem_cons, List.not_mem_nil, or_false] at hp
  rcases hp with h | h | h | h | h | h | h <;> simp [h]

theorem optKeys_ne_messages (cfg : Config) :
    ∀ p ∈ optPairs cfg, p.1 ≠ "messages" := by
  intro p hp
  simp only [optPairs, List.mem_cons, List.not_mem_nil, or_false] at hp
  rcases hp with h | h | h | h | h | h | h <;> simp [h]

/-- C6. Mode selection of the built payload: whenever build_request_body
returns a body, plain mode gives a body holding the prompt key and never
the messages key, and chat mode gives a body holding the messages key and
never the prompt key, for every configuration and every outcome of the
external collaborators. -/
theorem plain_mode_key_selection :
    (∀ (urlOk : String → Bool) (readFile : String → Option (List Nat))
      (b64 : List Nat → String) (cfg : Config) (prompt : String) (body : Json),
      cfg.plain = true →
      build_request_body urlOk readFile b64 cfg prompt = .ok body →
      hasKey body "prompt" = true ∧ hasKey body "messages" = false)
    ∧ (∀ (urlOk : String → Bool) (readFile : String → Option (List Nat))
      (b64 : List Nat → String) (cfg : Config) (prompt : String) (body : Json),
      cfg.plain = false →
      build_request_body urlOk readFile b64 cfg prompt = .ok body →
      hasKey body "messages" = true ∧ hasKey body "prompt" = false) := by
  constructor
  · intro urlOk readFile b64 cfg prompt body hplain hbuild
    simp [build_request_body, hplain] at hbuild
    subst hbuild
    constructor
    · simp only [hasKey]
      rw [getKey?_addOptionals_other cfg _ _ (optKeys_ne_prompt cfg)]
      simp [getKey?, getField]
    · simp only [hasKey]
      rw [getKey?_addOptionals_other cfg _ _ (optKeys_ne_messages cfg)]
      simp [getKey?, getField]
  · intro urlOk readFile b64 cfg prompt body hplain hbuild
    rcases himg : cfg.image_file with _ | path
    · simp [build_request_body, hplain, himg] at hbuild
      subst hbuild
      constructor
      · simp only [hasKey]
        rw [getKey?_addOptionals_other cfg _ _ (optKeys_ne_messages cfg)]
        simp [getKey?, getField]
      · simp only [hasKey]
        rw [getKey?_addOptionals_other cfg _ _ (optKeys_ne_prompt cfg)]
        simp [getKey?, getField]
    · rcases hic : imageContent urlOk readFile b64 path with msg | content
      · simp [build_request_body, hplain, himg, hic, Except.map] at hbuild
      · simp [build_request_body, hplain, himg, hic, Except.map] at hbuild
        subst hbuild
        constructor
        · simp only [hasKey]
          rw [getKey?_addOptionals_other cfg _ _ (optKeys_ne_messages cfg)]
          simp [getKey?, getField]
        · simp only [hasKey]
          rw [getKey?_addOptionals_other cfg _ _ (optKeys_ne_prompt cfg)]
          simp [getKey?, getField]

/-- C6 witness: the theorem applied to a concrete plain configuration and
a concrete chat configuration. -/
theorem plain_mode_key_selection_witness :
    (hasKey (Json.obj [("model", .str "m"), ("prompt", .str "hi"),
      ("stream", .bool false)]) "prompt" = true
     ∧ hasKey (Json.obj [("model", .str "m"), ("prompt", .str "hi"),
      ("stream", .bool false)]) "messages" = false)
    ∧ (hasKey (Json.obj [("model", .str "m"),
      ("messages", .arr (userMessage "hi")), ("stream", .bool false)])
        "messages" = true
     ∧ hasKey (Json.obj [("model", .str "m"),
      ("messages", .arr (userMessage "hi")), ("stream", .bool false)])
        "prompt" = false) :=
  ⟨plain_mode_key_selection.1 (fun _ => false) (fun _ => none) (fun _ => "")
    cfgPlain "hi" _ rfl rfl,
   plain_mode_key_selection.2 (fun _ => false) (fun _ => none) (fun _ => "")
    cfgChat "hi" _ rfl rfl⟩

/-- C7. Optional sampling parameters: whenever build_request_body returns
a body, each of the seven optional parameters appears in the body exactly
when it is set in the configuration, under its payload key, carrying
exactly the supplied value; an unset parameter contributes no key at all
(getKey? returning none rules out a null placeholder as well). -/
theorem optional_params_exact :
    ∀ (urlOk : String → Bool) (readFile : String → Option (List Nat))
      (b64 : List Nat → String) (cfg : Config) (prompt : String) (body : Json),
      build_request_body urlOk readFile b64 cfg prompt = .ok body →
      getKey? body "max_tokens" = cfg.max_tokens.map (fun n => Json.num (.int n))
      ∧ getKey? body "temperature" = cfg.temp.map Json.num
      ∧ getKey? body "top_k" = cfg.top_k.map (fun n => Json.num (.int n))
      ∧ getKey? body "top_p" = cfg.top_p.map Json.num
      ∧ getKey? body "min_p" = cfg.min_p.map Json.num
      ∧ getKey? body "repetition_penalty" = cfg.rep_pen.map Json.num
      ∧ getKey? body "seed" = cfg.seed.map (fun n => Json.num (.int n)) := by
  intro urlOk readFile b64 cfg prompt body hbuild
  rcases hplain : cfg.plain with _ | _
  · rcases himg : cfg.image_file with _ | path
    · simp [build_request_body, hplain, himg] at hbuild
      subst hbuild
      exact getKey?_addOptionals_all cfg _ (by simp [getField])
        (by simp [getField]) (by simp [getField]) (by simp [getField])
        (by simp [getField]) (by simp [getField]) (by simp [getField])
    · rcases hic : imageContent urlOk readFile b64 path with msg | content
      · simp [build_request_body, hplain, himg, hic, Except.map] at hbuild
      · simp [build_request_body, hplain, himg, hic, Except.map] at hbuild
        subst hbuild
        exact getKey?_addOptionals_all cfg _ (by simp [getField])
          (by simp [getField]) (by simp [getField]) (by simp [getField])
          (by simp [getField]) (by simp [getField]) (by simp [getField])
  · simp [build_request_body, hplain] at hbuild
    subst hbuild
    exact getKey?_addOptionals_all cfg _ (by simp [getField])
      (by simp [getField]) (by simp [getField]) (by simp [getField])
      (by simp [getField]) (by simp [getField]) (by simp [getField])

/-- C7 witness: the theorem applied to a configuration setting max_tokens,
temperature and seed while leaving the other parameters unset. -/
theorem optional_params_exact_witness :
    getKey? bodyOpt "max_tokens"
        = cfgOpt.max_tokens.map (fun n => Json.num (.int n))
    ∧ getKey? bodyOpt "temperature" = cfgOpt.temp.map Json.num
    ∧ getKey? bodyOpt "top_k" = cfgOpt.top_k.map (fun n => Json.num (.int n))
    ∧ getKey? bodyOpt "top_p" = cfgOpt.top_p.map Json.num
    ∧ getKey? bodyOpt "min_p" = cfgOpt.min_p.map Json.num
    ∧ getKey? bodyOpt "repetition_penalty" = cfgOpt.rep_pen.map Json.num
    ∧ getKey? bodyOpt "seed" = cfgOpt.seed.map (fun n => Json.num (.int n)) :=
  optional_params_exact (fun _ => false) (fun _ => none) (fun _ => "")
    cfgOpt "hi" bodyOpt rfl

/-- C8. On every payload line whose document parses, the drain step
dispatches exactly the per-choice fragments of that document, in choice
order, before the remaining buffer (the following lines) is processed;
and the per-choice fragments are: the text of a plain choice always (even
when empty), the delta content of a streaming choice only when present,
and the message content of a full-message choice only when present
(tolerated, not rejected). -/
theorem streaming_fragments_per_parsed_doc :
    (∀ (tok : Str → Option Json) (fuel : Nat) (buffer before rest js : Str)
      (j : Json) (resp : Response),
      splitNl buffer = some (before, rest) →
      trimL before ≠ [] →
      dropFront dataTag (trimL before) = some js →
      trimL js ≠ doneTag →
      tok js = some j →
      parseResponse j = some resp →
      drain tok (fuel + 1) buffer
        = (drain tok fuel (trimStartL rest)).withFrags
            (extractFragments resp.choices))
    ∧ (∀ c : NonChatChoice, choiceFragments (.nonChat c) = [c.text])
    ∧ (∀ c : StreamingChoice,
        choiceFragments (.streaming c) = c.delta.content.toList)
    ∧ (∀ c : NonStreamingChoice,
        choiceFragments (.nonStreaming c) = c.message.content.toList)
    ∧ (∀ (c : Choice) (cs : List Choice),
        extractFragments (c :: cs) = choiceFragments c ++ extractFragments cs) := by
  refine ⟨?_, fun c => rfl, fun c => ?_, fun c => ?_, fun c cs => rfl⟩
  · intro tok fuel buffer before rest js j resp h1 h2 h3 h4 h5 h6
    rw [drain]
    simp [h1, h2, h3, h4, h5, h6]
  · cases hc : c.delta.content <;> simp [choiceFragments, hc]
  · cases hc : c.message.content <;> simp [choiceFragments, hc]

/-- C8 witness: the drain step on the concrete mixed-shape document emits
its fragments (empty plain text included, absent message content skipped)
before the rest of the buffer. -/
theorem streaming_fragments_per_parsed_doc_witness :
    drain tokMixed 1 ("data: payload8\n".toList)
      = (drain tokMixed 0 (trimStartL [])).withFrags
          (extractFragments respMixed.choices) :=
  streaming_fragments_per_parsed_doc.1 tokMixed 0 ("data: payload8\n".toList)
    ("data: payload8".toList) [] ("payload8".toList) docMixed respMixed
    rfl (by decide) rfl (by decide) rfl rfl

/-- A newline already present in the buffer still delimits the same first
line after more text is appended. -/
theorem splitNl_append (buffer s before rest : Str)
    (h : splitNl buffer = some (before, rest)) :
    splitNl (buffer ++ s) = some (before, rest ++ s) := by
  induction buffer generalizing before rest with
  | nil => simp [splitNl] at h
  | cons c cs ih =>
    by_cases hc : c = '\n'
    · subst hc
      rw [splitNl, if_pos rfl] at h
      simp only [Option.some.injEq, Prod.mk.injEq] at h
      obtain ⟨hb, hr⟩ := h
      subst hb; subst hr
      simp [splitNl]
    · rcases hsp : splitNl cs with _ | ⟨b1, r1⟩
      · rw [splitNl, if_neg hc, hsp] at h
        simp at h
      · rw [splitNl, if_neg hc, hsp] at h
        simp only [Option.map_some', Option.some.injEq, Prod.mk.injEq] at h
        obtain ⟨hb, hr⟩ := h
        subst hb; subst hr
        rw [List.cons_append, splitNl, if_neg hc, ih b1 r1 hsp]
        rfl

/-- Appending further chunk text preserves the sentinel-at-front state. -/
theorem frontIsDone_append (buffer s : Str) (h : frontIsDone buffer) :
    frontIsDone (buffer ++ s) := by
  obtain ⟨before, rest, js, h1, h2, h3, h4⟩ := h
  exact ⟨before, rest ++ s, js, splitNl_append buffer s before rest h1, h2, h3, h4⟩

/-- With the sentinel line at the front, one drain step breaks at once,
emitting nothing and leaving the buffer unchanged. -/
theorem drain_of_frontIsDone (tok : Str → Option Json) (fuel : Nat)
    (buffer : Str) (h : frontIsDone buffer) :
    drain tok (fuel + 1) buffer = .doneSig [] buffer := by
  obtain ⟨before, rest, js, h1, h2, h3, h4⟩ := h
  rw [drain]
  simp [h1, h2, h3, h4]

/-- Whenever the drain loop reports the DONE sentinel, the buffer it
returns has the sentinel line as its first complete line. -/
theorem drain_doneSig_frontIsDone (tok : Str → Option Json) :
    ∀ (fuel : Nat) (buffer : Str) (fs : List String) (buf' : Str),
      drain tok fuel buffer = .doneSig fs buf' → frontIsDone buf' := by
  intro fuel
  induction fuel with
  | zero =>
    intro buffer fs buf' h
    simp [drain] at h
  | succ n ih =>
    intro buffer fs buf' h
    rw [drain] at h
    split at h
    · simp at h
    · dsimp only at h
      rename_i before rest hsp
      split at h
      · exact ih _ _ _ h
      · rename_i hline
        split at h
        · rename_i jsonStr hdf
          split at h
          · rename_i hdone
            simp only [DrainOutcome.doneSig.injEq] at h
            obtain ⟨hfs, hbuf⟩ := h
            subst hbuf
            exact ⟨before, rest, jsonStr, hsp, hline, hdf, hdone⟩
          · split at h
            · split at h
              · rename_i j htok resp hpr
                rcases hdr : drain tok n (trimStartL rest) with
                  ⟨gs, b⟩ | ⟨gs, b⟩ | ⟨gs, e⟩ | gs
                · rw [hdr] at h
                  simp [DrainOutcome.withFrags] at h
                · rw [hdr] at h
                  simp only [DrainOutcome.withFrags,
                    DrainOutcome.doneSig.injEq] at h
                  obtain ⟨hfs, hbuf⟩ := h
                  subst hbuf
                  exact ih _ _ _ hdr
                · rw [hdr] at h
                  simp [DrainOutcome.withFrags] at h
                · rw [hdr] at h
                  simp [DrainOutcome.withFrags] at h
              · split at h
                · simp at h
                · simp at h
            · simp at h
        · exact ih _ _ _ h

/-- Once the sentinel line heads the buffer, no later chunk event makes
the call emit anything. -/
theorem processChunks_after_done (tok : Str → Option Json) (fuel : Nat) :
    ∀ (events : List ChunkEvent) (buffer : Str), frontIsDone buffer →
      (processChunksFrom tok fuel events buffer).emitted = [] := by
  intro events
  induction events with
  | nil =>
    intro buffer h
    rfl
  | cons e rest ih =>
    intro buffer h
    cases e with
    | readErr => rfl
    | chunk s =>
      have h2 : frontIsDone (buffer ++ s) := frontIsDone_append buffer s h
      rw [processChunksFrom]
      cases fuel with
      | zero => simp [drain]
      | succ n =>
        rw [drain_of_frontIsDone tok n (buffer ++ s) h2]
        simp [StreamOutcome.withFrags, ih _ h2]

/-- C9. Once the drain loop encounters a DONE sentinel line (the trimmed
payload after the data marker equals the sentinel), the decoder emits no
further fragment for the remainder of the call: the sentinel line is never
consumed, so every later chunk - whatever payload lines it carries - drains
to an immediate break with nothing dispatched. -/
theorem done_sentinel_silences :
    ∀ (tok : Str → Option Json) (fuel : Nat) (buffer : Str)
      (fs : List String) (buf' : Str),
      drain tok fuel buffer = .doneSig fs buf' →
      ∀ (fuel2 : Nat) (events : List ChunkEvent),
        (processChunksFrom tok fuel2 events buf').emitted = [] := by
  intro tok fuel buffer fs buf' h fuel2 events
  exact processChunks_after_done tok fuel2 events buf'
    (drain_doneSig_frontIsDone tok fuel buffer fs buf' h)

/-- C9 witness: after the sentinel, a chunk carrying a payload line that
would otherwise emit two fragments emits nothing. -/
theorem done_sentinel_silences_witness :
    (processChunksFrom tokMixed 2 [.chunk ("data: payload8\n".toList)]
      ("data: [DONE]\n".toList)).emitted = [] :=
  done_sentinel_silences tokMixed 2 ("data: [DONE]\n".toList) []
    ("data: [DONE]\n".toList) rfl 2 [.chunk ("data: payload8\n".toList)]

/-! Helper lemmas for the independence of the embedded choice error. -/

theorem getField_append (xs ys : List (String × Json)) (k : String) :
    getField (xs ++ ys) k
      = match getField xs k with
        | some v => some v
        | none => getField ys k := by
  induction xs with
  | nil => simp [getField]
  | cons p rest ih =>
    obtain ⟨k1, v1⟩ := p
    by_cases h : k1 = k
    · simp [getField, h]
    · simp [getField, h, ih]

theorem getField_filter_key (xs : List (String × Json)) (key : String) :
    getField (xs.filter (fun p => p.1 != key)) key = none := by
  induction xs with
  | nil => rfl
  | cons p rest ih =>
    obtain ⟨k1, v1⟩ := p
    by_cases h : k1 = key
    · simp [List.filter_cons, h, ih]
    · simp [List.filter_cons, h, getField, ih]

theorem getField_withError_ne (fields : List (String × Json))
    (o o' : Option Json) (k : String) (hk : k ≠ "error") :
    getField (withErrorField fields o) k = getField (withErrorField fields o') k := by
  unfold withErrorField
  rw [getField_append, getField_append]
  cases getField (fields.filter (fun p => p.1 != "error")) k with
  | some v => rfl
  | none =>
    cases o <;> cases o' <;> simp [getField, Ne.symm hk]

theorem getField_withError_err (fields : List (String × Json))
    (o : Option Json) :
    getField (withErrorField fields o) "error" = o := by
  unfold withErrorField
  rw [getField_append, getField_filter_key]
  cases o <;> simp [getField]

theorem optField_ext (f f' : List (String × Json)) (k : String)
    (p : Json → Option α) (h : getField f k = getField f' k) :
    optField f k p = optField f' k p := by
  unfold optField
  rw [h]

theorem reqField_ext (f f' : List (String × Json)) (k : String)
    (p : Json → Option α) (h : getField f k = getField f' k) :
    reqField f k p = reqField f' k p := by
  unfold reqField
  rw [h]

theorem wf_errComp (fields : List (String × Json)) (o : Option Json)
    (ho : WellFormedErr o) :
    ∃ a, optField (withErrorField fields o) "error" parseErrorResponse
      = some a := by
  cases o with
  | none =>
    exact ⟨none, by simp [optField, getField_withError_err]⟩
  | some e =>
    rcases ho with he | hps
    · subst he
      exact ⟨none, by simp [optField, getField_withError_err]⟩
    · rcases hx : parseErrorResponse e with _ | x
      · rw [hx] at hps
        simp at hps
      · refine ⟨some x, ?_⟩
        cases e <;> simp [optField, getField_withError_err, hx]
        simp [parseErrorResponse] at hx

theorem option_map_rel {α β : Type} (f : α → β) (x y : Option α)
    (h : x.map f = y.map f) :
    (x = none ∧ y = none) ∨ ∃ a b, x = some a ∧ y = some b ∧ f a = f b := by
  cases x with
  | none =>
    cases y with
    | none => exact Or.inl ⟨rfl, rfl⟩
    | some b => simp at h
  | some a =>
    cases y with
    | none => simp at h
    | some b =>
      simp only [Option.map_some', Option.some.injEq] at h
      exact Or.inr ⟨a, b, rfl, rfl, h⟩

theorem parseNonChatChoice_withError (fields : List (String × Json))
    (o o' : Option Json) (ho : WellFormedErr o) (ho' : WellFormedErr o') :
    (parseNonChatChoice (withErrorField fields o)).map
        (fun c => (⟨c.finish_reason, c.text, none⟩ : NonChatChoice))
      = (parseNonChatChoice (withErrorField fields o')).map
        (fun c => ⟨c.finish_reason, c.text, none⟩) := by
  obtain ⟨a, ha⟩ := wf_errComp fields o ho
  obtain ⟨a', ha'⟩ := wf_errComp fields o' ho'
  have h1 : optField (withErrorField fields o') "finish_reason" asString
      = optField (withErrorField fields o) "finish_reason" asString :=
    optField_ext _ _ _ _ (getField_withError_ne fields o' o _ (by decide))
  have h2 : reqField (withErrorField fields o') "text" asString
      = reqField (withErrorField fields o) "text" asString :=
    reqField_ext _ _ _ _ (getField_withError_ne fields o' o _ (by decide))
  unfold parseNonChatChoice
  rw [h1, h2, ha, ha']
  rcases optField (withErrorField fields o) "finish_reason" asString with _ | fr <;>
    rcases reqField (withErrorField fields o) "text" asString with _ | t <;> rfl

theorem parseNonStreamingChoice_withError (fields : List (String × Json))
    (o o' : Option Json) (ho : WellFormedErr o) (ho' : WellFormedErr o') :
    (parseNonStreamingChoice (withErrorField fields o)).map
        (fun c => (⟨c.finish_reason, c.message, none⟩ : NonStreamingChoice))
      = (parseNonStreamingChoice (withErrorField fields o')).map
        (fun c => ⟨c.finish_reason, c.message, none⟩) := by
  obtain ⟨a, ha⟩ := wf_errComp fields o ho
  obtain ⟨a', ha'⟩ := wf_errComp fields o' ho'
  have h1 : optField (withErrorField fields o') "finish_reason" asString
      = optField (withErrorField fields o) "finish_reason" asString :=
    optField_ext _ _ _ _ (getField_withError_ne fields o' o _ (by decide))
  have h2 : reqField (withErrorField fields o') "message" parseMessage
      = reqField (withErrorField fields o) "message" parseMessage :=
    reqField_ext _ _ _ _ (getField_withError_ne fields o' o _ (by decide))
  unfold parseNonStreamingChoice
  rw [h1, h2, ha, ha']
  rcases optField (withErrorField fields o) "finish_reason" asString with _ | fr <;>
    rcases reqField (withErrorField fields o) "message" parseMessage with _ | m <;> rfl

theorem parseStreamingChoice_withError (fields : List (String × Json))
    (o o' : Option Json) (ho : WellFormedErr o) (ho' : WellFormedErr o') :
    (parseStreamingChoice (withErrorField fields o)).map
        (fun c => (⟨c.finish_reason, c.delta, none⟩ : StreamingChoice))
      = (parseStreamingChoice (withErrorField fields o')).map
        (fun c => ⟨c.finish_reason, c.delta, none⟩) := by
  obtain ⟨a, ha⟩ := wf_errComp fields o ho
  obtain ⟨a', ha'⟩ := wf_errComp fields o' ho'
  have h1 : optField (withErrorField fields o') "finish_reason" asString
      = optField (withErrorField fields o) "finish_reason" asString :=
    optField_ext _ _ _ _ (getField_withError_ne fields o' o _ (by decide))
  have h2 : reqField (withErrorField fields o') "delta" parseDelta
      = reqField (withErrorField fields o) "delta" parseDelta :=
    reqField_ext _ _ _ _ (getField_withError_ne fields o' o _ (by decide))
  unfold parseStreamingChoice
  rw [h1, h2, ha, ha']
  rcases optField (withErrorField fields o) "finish_reason" asString with _ | fr <;>
    rcases reqField (withErrorField fields o) "delta" parseDelta with _ | d <;> rfl

theorem parseChoice_equiv (c c' : Json) (h : ChoiceDocEquiv c c') :
    (parseChoice c).map Choice.eraseError
      = (parseChoice c').map Choice.eraseError := by
  obtain ⟨fields, o, o', ho, ho', rfl, rfl⟩ := h
  have hnc := parseNonChatChoice_withError fields o o' ho ho'
  have hns := parseNonStreamingChoice_withError fields o o' ho ho'
  have hst := parseStreamingChoice_withError fields o o' ho ho'
  rcases option_map_rel _ _ _ hnc with ⟨e1, e1'⟩ | ⟨c1, c1', e1, e1', hcc1⟩
  · rcases option_map_rel _ _ _ hns with ⟨e2, e2'⟩ | ⟨m1, m1', e2, e2', hcc2⟩
    · rcases option_map_rel _ _ _ hst with ⟨e3, e3'⟩ | ⟨s1, s1', e3, e3', hcc3⟩
      · simp [parseChoice, e1, e1', e2, e2', e3, e3']
      · simp only [parseChoice, e1, e1', e2, e2', e3, e3', Option.map_some']
        simp only [Choice.eraseError]
        rw [hcc3]
    · simp only [parseChoice, e1, e1', e2, e2', Option.map_some']
      simp only [Choice.eraseError]
      rw [hcc2]
  · simp only [parseChoice, e1, e1', Option.map_some']
    simp only [Choice.eraseError]
    rw [hcc1]

theorem parseList_equiv (cs cs' : List Json)
    (h : List.Forall₂ ChoiceDocEquiv cs cs') :
    (parseList parseChoice cs).map (List.map Choice.eraseError)
      = (parseList parseChoice cs').map (List.map Choice.eraseError) := by
  induction h with
  | nil => rfl
  | cons hxy hrest ih =>
    rename_i x y xs ys
    have hx := parseChoice_equiv x y hxy
    rcases option_map_rel _ _ _ hx with ⟨e1, e1'⟩ | ⟨a, b, e1, e1', hab⟩
    · simp [parseList, e1, e1']
    · rcases option_map_rel _ _ _ ih with ⟨e2, e2'⟩ | ⟨l, l', e2, e2', hll⟩
      · simp [parseList, e1, e1', e2, e2']
      · simp [parseList, e1, e1', e2, e2', hab, hll]

theorem getField_withChoices_ne (top : List (String × Json))
    (cs cs' : List Json) (k : String) (hk : k ≠ "choices") :
    getField (withChoicesField top cs) k
      = getField (withChoicesField top cs') k := by
  unfold withChoicesField
  rw [getField_append, getField_append]
  cases getField (top.filter (fun p => p.1 != "choices")) k with
  | some v => rfl
  | none => simp [getField, Ne.symm hk]

theorem getField_withChoices_self (top : List (String × Json))
    (cs : List Json) :
    getField (withChoicesField top cs) "choices" = some (.arr cs) := by
  unfold withChoicesField
  rw [getField_append, getField_filter_key]
  simp [getField]

theorem reqField_withChoices (top : List (String × Json)) (cs : List Json) :
    reqField (withChoicesField top cs) "choices" parseChoiceList
      = parseList parseChoice cs := by
  rw [reqField, getField_withChoices_self]
  rfl

set_option maxHeartbeats 1000000 in
theorem parseResponse_equiv (d d' : Json) (h : DocErrEquiv d d') :
    (parseResponse d).map Response.eraseErrors
      = (parseResponse d').map Response.eraseErrors := by
  obtain ⟨top, cs, cs', hall, rfl, rfl⟩ := h
  have hchoices := parseList_equiv cs cs' hall
  have hid : optField (withChoicesField top cs') "id" asString
      = optField (withChoicesField top cs) "id" asString :=
    optField_ext _ _ _ _ (getField_withChoices_ne top cs' cs _ (by decide))
  have hprov : optField (withChoicesField top cs') "provider" asString
      = optField (withChoicesField top cs) "provider" asString :=
    optField_ext _ _ _ _ (getField_withChoices_ne top cs' cs _ (by decide))
  have hmod : reqField (withChoicesField top cs') "model" asString
      = reqField (withChoicesField top cs) "model" asString :=
    reqField_ext _ _ _ _ (getField_withChoices_ne top cs' cs _ (by decide))
  have hobj : reqField (withChoicesField top cs') "object" asString
      = reqField (withChoicesField top cs) "object" asString :=
    reqField_ext _ _ _ _ (getField_withChoices_ne top cs' cs _ (by decide))
  have hcr : reqField (withChoicesField top cs') "created" asU64
      = reqField (withChoicesField top cs) "created" asU64 :=
    reqField_ext _ _ _ _ (getField_withChoices_ne top cs' cs _ (by decide))
  have hfp : optField (withChoicesField top cs') "system_fingerprint" asString
      = optField (withChoicesField top cs) "system_fingerprint" asString :=
    optField_ext _ _ _ _ (getField_withChoices_ne top cs' cs _ (by decide))
  have hus : optField (withChoicesField top cs') "usage" parseUsage
      = optField (withChoicesField top cs) "usage" parseUsage :=
    optField_ext _ _ _ _ (getField_withChoices_ne top cs' cs _ (by decide))
  unfold parseResponse
  dsimp only
  rw [hid, hprov, hmod, hobj, hcr, hfp, hus, reqField_withChoices,
    reqField_withChoices]
  rcases option_map_rel _ _ _ hchoices with ⟨ec, ec'⟩ | ⟨l, l', ec, ec', hll⟩
  · rcases optField (withChoicesField top cs) "id" asString with _ | vid <;>
    rcases optField (withChoicesField top cs) "provider" asString with _ | vprov <;>
    rcases reqField (withChoicesField top cs) "model" asString with _ | vmod <;>
    rcases reqField (withChoicesField top cs) "object" asString with _ | vobj <;>
    rcases reqField (withChoicesField top cs) "created" asU64 with _ | vcr <;>
    rcases optField (withChoicesField top cs) "system_fingerprint" asString with _ | vfp <;>
    rcases optField (withChoicesField top cs) "usage" parseUsage with _ | vus <;>
    simp [ec, ec', Response.eraseErrors]
  · rcases optField (withChoicesField top cs) "id" asString with _ | vid <;>
    rcases optField (withChoicesField top cs) "provider" asString with _ | vprov <;>
    rcases reqField (withChoicesField top cs) "model" asString with _ | vmod <;>
    rcases reqField (withChoicesField top cs) "object" asString with _ | vobj <;>
    rcases reqField (withChoicesField top cs) "created" asU64 with _ | vcr <;>
    rcases optField (withChoicesField top cs) "system_fingerprint" asString with _ | vfp <;>
    rcases optField (withChoicesField top cs) "usage" parseUsage with _ | vus <;>
    simp [ec, ec', Response.eraseErrors, hll]

theorem parseErrorResponseContainer_equiv (d d' : Json) (h : DocErrEquiv d d') :
    parseErrorResponseContainer d = parseErrorResponseContainer d' := by
  obtain ⟨top, cs, cs', hall, rfl, rfl⟩ := h
  unfold parseErrorResponseContainer
  dsimp only
  rw [reqField_ext _ _ _ _ (getField_withChoices_ne top cs cs' "error" (by decide))]

theorem choiceFragments_eraseError (c : Choice) :
    choiceFragments (Choice.eraseError c) = choiceFragments c := by
  cases c <;> rfl

theorem extractFragments_map_erase (l : List Choice) :
    extractFragments (l.map Choice.eraseError) = extractFragments l := by
  induction l with
  | nil => rfl
  | cons c cs ih => simp [extractFragments, choiceFragments_eraseError, ih]

theorem extractFragments_of_erase_eq (l l' : List Choice)
    (h : l.map Choice.eraseError = l'.map Choice.eraseError) :
    extractFragments l = extractFragments l' := by
  rw [← extractFragments_map_erase l, ← extractFragments_map_erase l', h]

theorem process_non_streaming_equiv (raw : String) (d d' : Json)
    (h : DocErrEquiv d d') :
    process_non_streaming_response raw (some d)
      = process_non_streaming_response raw (some d') := by
  have hp := parseResponse_equiv d d' h
  have he := parseErrorResponseContainer_equiv d d' h
  rcases option_map_rel _ _ _ hp with ⟨e1, e1'⟩ | ⟨r, r', e1, e1', hrr⟩
  · simp [process_non_streaming_response, e1, e1', he]
  · have hch : r.choices.map Choice.eraseError
        = r'.choices.map Choice.eraseError := congrArg Response.choices hrr
    simp only [process_non_streaming_response, Option.some_bind, e1, e1']
    rcases hl : r.choices with _ | ⟨c, cs⟩ <;>
      rcases hl' : r'.choices with _ | ⟨c', cs2⟩
    · rfl
    · rw [hl, hl'] at hch
      simp at hch
    · rw [hl, hl'] at hch
      simp at hch
    · rw [hl, hl'] at hch
      simp only [List.map_cons, List.cons.injEq] at hch
      obtain ⟨hc, _⟩ := hch
      cases c with
      | nonChat c1 =>
        cases c' with
        | nonChat c2 =>
          simp only [Choice.eraseError, Choice.nonChat.injEq,
            NonChatChoice.mk.injEq] at hc
          simp [hc.2.1]
        | nonStreaming c2 => simp [Choice.eraseError] at hc
        | streaming c2 => simp [Choice.eraseError] at hc
      | nonStreaming c1 =>
        cases c' with
        | nonChat c2 => simp [Choice.eraseError] at hc
        | nonStreaming c2 =>
          simp only [Choice.eraseError, Choice.nonStreaming.injEq,
            NonStreamingChoice.mk.injEq] at hc
          simp [hc.2.1]
        | streaming c2 => simp [Choice.eraseError] at hc
      | streaming c1 =>
        cases c' with
        | nonChat c2 => simp [Choice.eraseError] at hc
        | nonStreaming c2 => simp [Choice.eraseError] at hc
        | streaming c2 => rfl

theorem drain_equiv (tok tok' : Str → Option Json)
    (h : ∀ s, OptDocEquiv (tok s) (tok' s)) :
    ∀ (fuel : Nat) (buffer : Str),
      drain tok fuel buffer = drain tok' fuel buffer := by
  intro fuel
  induction fuel with
  | zero => intro buffer; rfl
  | succ n ih =>
    intro buffer
    simp only [drain]
    rcases hsp : splitNl buffer with _ | ⟨before, rest⟩
    · rfl
    · by_cases hline : trimL before = []
      · simp [hline, ih]
      · simp only [hline, if_neg hline]
        rcases hdf : dropFront dataTag (trimL before) with _ | js
        · simp [ih]
        · by_cases hdone : trimL js = doneTag
          · simp [hdone]
          · simp only [hdone, if_neg hdone]
            have hjs := h js
            rcases htok : tok js with _ | d <;> rcases htok' : tok' js with _ | d'
            · rfl
            · rw [htok, htok'] at hjs
              simp [OptDocEquiv] at hjs
            · rw [htok, htok'] at hjs
              simp [OptDocEquiv] at hjs
            · rw [htok, htok'] at hjs
              simp only [OptDocEquiv] at hjs
              have hp := parseResponse_equiv d d' hjs
              have he := parseErrorResponseContainer_equiv d d' hjs
              rcases option_map_rel _ _ _ hp with ⟨e1, e1'⟩ | ⟨r, r', e1, e1', hrr⟩
              · simp [e1, e1', he]
              · have hfr : extractFragments r.choices
                    = extractFragments r'.choices :=
                  extractFragments_of_erase_eq _ _ (congrArg Response.choices hrr)
                simp [e1, e1', hfr, ih]

theorem processChunks_equiv (tok tok' : Str → Option Json)
    (h : ∀ s, OptDocEquiv (tok s) (tok' s)) :
    ∀ (fuel : Nat) (events : List ChunkEvent) (buffer : Str),
      processChunksFrom tok fuel events buffer
        = processChunksFrom tok' fuel events buffer := by
  intro fuel events
  induction events with
  | nil => intro buffer; rfl
  | cons e rest ih =>
    intro buffer
    cases e with
    | readErr => rfl
    | chunk s =>
      simp only [processChunksFrom]
      rw [← drain_equiv tok tok' h fuel (buffer ++ s)]
      rcases hdr : drain tok fuel (buffer ++ s) with
        ⟨fs, b⟩ | ⟨fs, b⟩ | ⟨fs, e2⟩ | fs <;> simp [ih]

/-- C10. The embedded per-choice error field never influences observable
behaviour. For choice objects differing only in the presence or value of a
well-formed embedded error entry, parsing yields the same variant with the
same payload up to the error field; for wire documents differing only in
such entries, the non-streaming decoder produces identical outcomes
(fragments and result), and two streaming runs whose lexers yield
pointwise equivalent documents are observationally identical; in
particular an embedded choice error is never surfaced as a call failure. -/
theorem embedded_choice_error_ignored :
    (∀ c c' : Json, ChoiceDocEquiv c c' →
      (parseChoice c).map Choice.eraseError
        = (parseChoice c').map Choice.eraseError)
    ∧ (∀ (raw : String) (d d' : Json), DocErrEquiv d d' →
      process_non_streaming_response raw (some d)
        = process_non_streaming_response raw (some d'))
    ∧ (∀ tok tok' : Str → Option Json, (∀ s, OptDocEquiv (tok s) (tok' s)) →
      ∀ (fuel : Nat) (events : List ChunkEvent),
        process_streaming_response tok fuel events
          = process_streaming_response tok' fuel events) :=
  ⟨parseChoice_equiv, process_non_streaming_equiv,
   fun tok tok' h fuel events => processChunks_equiv tok tok' h fuel events []⟩

/-- C10 witness: the theorem applied to concrete documents that differ
only in one well-formed embedded choice error. -/
theorem embedded_choice_error_ignored_witness :
    (parseChoice cErr).map Choice.eraseError
        = (parseChoice cNoErr).map Choice.eraseError
    ∧ process_non_streaming_response "r" (some dErr)
        = process_non_streaming_response "r" (some dNoErr)
    ∧ process_streaming_response tokErr 3 [.chunk ("data: pl\n".toList)]
        = process_streaming_response tokNoErr 3 [.chunk ("data: pl\n".toList)] := by
  have hcc : ChoiceDocEquiv cErr cNoErr :=
    ⟨[("text", .str "t")], some errJson, none, Or.inr (by decide), trivial,
     rfl, rfl⟩
  have hdd : DocErrEquiv dErr dNoErr :=
    ⟨topX, [cErr], [cNoErr], List.Forall₂.cons hcc List.Forall₂.nil, rfl, rfl⟩
  refine ⟨embedded_choice_error_ignored.1 cErr cNoErr hcc,
          embedded_choice_error_ignored.2.1 "r" dErr dNoErr hdd,
          embedded_choice_error_ignored.2.2 tokErr tokNoErr ?_ 3 _⟩
  intro s
  by_cases hs : s = "pl".toList
  · simp only [tokErr, tokNoErr, hs, if_pos rfl]
    exact hdd
  · have hs2 : ¬s = ['p', 'l'] := hs
    simp [tokErr, tokNoErr, if_neg hs2, OptDocEquiv]

end Evocaition
